import Mathlib

/-!
Verification of the akahu_to_actualbudget sync engine against its
natural-language specification.

The Python sources are shallowly embedded: each Python function that a claim
refers to is translated into an executable Lean definition.  External
collaborators (the Akahu HTTP API, the Actual/YNAB clients, the `fuzzywuzzy`
scorer, the OpenAI completion endpoint, the system clock, and the datetime
formatting library) are passed in as explicit parameters or oracles, mirroring
the spec's "external collaborators accessed only through narrow interfaces".
Python exceptions are modelled with `Except`; dict fields that may be absent
or null are modelled with `Option`.
-/

namespace AkahuSync

/-! ## Webhook ingress (src/python/akahu_to_budget.py lines 457-527)

`verify_signature` loads a PEM public key, base64-decodes the
`X-Akahu-Signature` header and checks an RSA PKCS1v15/SHA256 signature over
the raw body.  The crypto library is external, so the three ways each step
can fail are modelled as boolean inputs:

  * `pem_ok = false`        : `serialization.load_pem_public_key` raises `ValueError`;
  * `sig_decodes = false`   : `base64.b64decode` raises `binascii.Error` on a
                              malformed header, or `TypeError` when the header is
                              missing (`b64decode(None)`); both are modelled as
                              `decodeError`;
  * `sig_matches = false`   : `public_key.verify` raises `InvalidSignature`.

The Python `try` block catches *only* `InvalidSignature` (and re-raises it);
every other exception escapes `verify_signature` uncaught. -/

inductive PyError where
  | invalidSignature
  | valueError
  | decodeError
  deriving DecidableEq, Repr

/-- Embedding of `verify_signature` (akahu_to_budget.py lines 457-476).
Returns `.ok ()` when verification succeeds, otherwise the exception that
escapes the function. -/
def verify_signature (pem_ok sig_decodes sig_matches : Bool) : Except PyError Unit :=
  if ¬ pem_ok then .error .valueError
  else if ¬ sig_decodes then .error .decodeError
  else if sig_matches then .ok () else .error .invalidSignature

structure WebhookResponse where
  status : Nat
  body : String
  deriving DecidableEq, Repr

/-- Embedding of the `/receive-transaction` Flask handler
(akahu_to_budget.py lines 501-527).  The result pairs the HTTP response with
a flag recording whether `load_transactions_into_actual` was invoked; an
`Except.error` models an exception escaping the handler (Flask then answers
with its generic 500 error page, not a handler-produced response).
Only `InvalidSignature` is caught by the handler's `try/except`. -/
def receive_transaction (pem_ok sig_decodes sig_matches : Bool)
    (event_type : Option String) : Except PyError (WebhookResponse × Bool) :=
  match verify_signature pem_ok sig_decodes sig_matches with
  | .error .invalidSignature => .ok (⟨400, "invalid signature"⟩, false)
  | .error e => .error e
  | .ok _ =>
    match event_type with
    | some t =>
      if t = "TRANSACTION_CREATED" then .ok (⟨200, "success"⟩, true)
      else .ok (⟨200, "ignored"⟩, false)
    | none => .ok (⟨200, "ignored"⟩, false)

/-- Whether the reconciliation code ran for a given handler outcome. -/
def importer_invoked : Except PyError (WebhookResponse × Bool) → Bool
  | .ok (_, b) => b
  | .error _ => false

/-! ## Balance reconciler (src/python/akahu_to_budget.py lines 235-283) -/

/-- Python's built-in `round` on the balance: round half to even. -/
def pyRound (q : ℚ) : ℤ :=
  let f : ℤ := q.floor
  let r : ℚ := q - f
  if r < 1/2 then f
  else if 1/2 < r then f + 1
  else if f % 2 = 0 then f else f + 1

/-- Python's `int()` on a number: truncation toward zero. -/
def pyTrunc (q : ℚ) : ℤ := if q < 0 then q.ceil else q.floor

/-- A call to `actual.queries.create_transaction` / `reconcile_transaction`,
as issued by the importer and the balance reconciler. -/
structure ReconcileCall where
  date : String
  account : String
  payee : String
  notes : String
  amount : ℚ
  imported_id : String
  cleared : Bool
  deriving DecidableEq, Repr

/-- Embedding of `handle_tracking_account_actual` (akahu_to_budget.py lines
235-283): the list of `create_transaction` calls it issues.  `akahu_balance`
is the pre-populated source balance (dollars), `actual_balance` the target's
integer minor-unit balance returned by `get_actual_balance`; `now_date` and
`now_iso` are `datetime.utcnow().date()` / `.isoformat()` (the clock is an
external input).  Python's float formatting inside the `notes` f-string is
abstracted by `toString` on the exact rationals. -/
def handle_tracking_account_actual (akahu_balance : ℚ) (actual_balance : ℤ)
    (actual_account_id now_date now_iso : String) : List ReconcileCall :=
  let ab : ℤ := pyRound (akahu_balance * 100)
  if ab = actual_balance then []
  else
    [{ date := now_date
       account := actual_account_id
       payee := "Balance Adjustment"
       notes := "Adjusted from " ++ toString ((actual_balance : ℚ) / 100) ++
                " to " ++ toString ((ab : ℚ) / 100) ++ " to reconcile tracking account."
       amount := ((ab - actual_balance : ℤ) : ℚ) / 100
       imported_id := "adjustment_" ++ now_iso
       cleared := true }]

/-! ## First-page `start` parameter of the transaction fetch

Both scripts name the function `get_all_akahu`.  Timestamps are modelled as
integer epoch seconds; `strptime`/`strftime` round-trip exactly on the
`%Y-%m-%dT%H:%M:%SZ` format, and `timedelta(days=7)` is `7 * 86400` seconds.
`start_of_time` stands for the constant `"2024-01-01T00:00:00Z"`. -/

/-- The `start` query parameter sent with the first page by
`akahu_to_budget.get_all_akahu` (lines 91-102): the checkpoint itself when
provided, otherwise the default start of time.  No lookback is subtracted. -/
def firstPageStart_budget (start_of_time : ℤ) (last_reconciled_at : Option ℤ) : ℤ :=
  match last_reconciled_at with
  | some t => t
  | none => start_of_time

/-- The `start` query parameter sent with the first page by
`akahu_to_actual.get_all_akahu` (lines 87-109): the checkpoint (or default)
minus `timedelta(days=7)`. -/
def firstPageStart_actual (start_of_time : ℤ) (last_reconciled_at : Option ℤ) : ℤ :=
  (match last_reconciled_at with
   | some t => t
   | none => start_of_time) - 7 * 86400

/-! ## Paginated transaction fetch (src/python/akahu_to_budget.py lines 104-141)

The Akahu HTTP API is an external collaborator; it is modelled as an oracle
list of answers consumed one per request.  Each answer is either a JSON page
(`items` plus an optional `cursor.next`) or a `requests.RequestException`.
Transactions are opaque records, modelled by their id strings. -/

structure Page (α : Type) where
  items : List α
  next : Option String
  deriving DecidableEq, Repr

inductive FetchAnswer (α : Type) where
  | ok (p : Page α)
  | requestError
  deriving DecidableEq, Repr

/-- The `while next_cursor is not None` loop of `akahu_to_budget.get_all_akahu`
(lines 104-141).  `cursor` is the `cursor` query parameter of the next request
(`none` on the first request, where the Python sentinel is `'first time'`);
`res` is the accumulated DataFrame (`none` before the first page is stored).
Returns the final `res` together with the list of cursor parameters of the
requests actually issued.  On a request error the loop `break`s and returns
what was accumulated; pagination also ends when a page has no next cursor or
zero items (line 135).  The oracle list running dry is unreachable for the
answer lists used below (they all end in a terminal page or an error). -/
def get_all_akahu_go {α : Type} : List (FetchAnswer α) → Option String → Option (List α) →
    Option (List α) × List (Option String)
  | [], _, res => (res, [])
  | .requestError :: _, cursor, res => (res, [cursor])
  | .ok p :: rest, cursor, res =>
    let res' : Option (List α) := some (res.getD [] ++ p.items)
    if p.items.length = 0 ∨ p.next = none then (res', [cursor])
    else
      let out := get_all_akahu_go rest p.next res'
      (out.1, cursor :: out.2)

/-- Embedding of `akahu_to_budget.get_all_akahu`'s fetch loop: accumulated
transactions (`none` models the `res is None` outcome) and the cursor
parameters of the issued requests, in order. -/
def get_all_akahu {α : Type} (answers : List (FetchAnswer α)) :
    Option (List α) × List (Option String) :=
  get_all_akahu_go answers none none

/-- The `while True` loop of `AkahuAPI.fetch_transactions_paginated`
(akahu_api.py lines 41-70).  Requests always carry a `cursor` param (dropped
by the `requests` library when `None`, hence `Option`); the loop breaks when
`next_cursor` is falsy (absent or the empty string).  Returns the collected
transactions and the cursor parameters of the issued requests. -/
def fetch_transactions_paginated_go {α : Type} : List (Page α) → Option String →
    List α × List (Option String)
  | [], _ => ([], [])
  | p :: rest, cursor =>
    match p.next with
    | none => (p.items, [cursor])
    | some c =>
      if c = "" then (p.items, [cursor])
      else
        let out := fetch_transactions_paginated_go rest (some c)
        (p.items ++ out.1, cursor :: out.2)

/-- Embedding of `AkahuAPI.fetch_transactions_paginated` over a page oracle. -/
def fetch_transactions_paginated {α : Type} (pages : List (Page α)) :
    List α × List (Option String) :=
  fetch_transactions_paginated_go pages none

/-! ## Source transactions and the importer (akahu_to_budget.py lines 184-233, 366-387) -/

/-- A source (Akahu) transaction as consumed by the importer: `_id`, `date`,
signed `amount` (source convention: positive = money in), `description`, and
the optional `merchant.name`. -/
structure SourceTxn where
  id : String
  date : String
  amount : ℚ
  description : String
  merchant_name : Option String
  deriving DecidableEq, Repr

/-- One mapping-file entry (a row of the `mapping` list), with absent/null
JSON fields as `Option`.  `nested_actual_id` / `nested_ynab_id` model the
nested `entry["actual"]["id"]` / `entry["ynab"]["id"]` sub-objects read by
`akahu_budget_mapping.merge_and_update_mapping` (lines 197, 202), which are
distinct from the flat `actual_account_id` / `ynab_account_id` keys. -/
structure MappingEntry where
  akahu_id : String
  akahu_name : String
  account_type : Option String
  actual_account_id : Option String
  actual_budget_id : Option String
  actual_budget_name : Option String
  actual_account_name : Option String
  ynab_account_id : Option String
  ynab_budget_id : Option String
  ynab_budget_name : Option String
  ynab_account_name : Option String
  actual_synced_datetime : Option String
  matched_date : Option String
  nested_actual_id : Option String
  nested_ynab_id : Option String
  deriving DecidableEq, Repr

/-- Embedding of `load_transactions_into_actual` (akahu_to_budget.py lines
184-233): the `reconcile_transaction` calls it issues, and the updated
mapping entry.  `transactions = none` models a `None` DataFrame; the empty
list models an empty one — in both cases the function returns early without
touching the entry.  Otherwise each transaction is reconciled with its amount
negated (`txn["amount"] * -1`, line 202) and afterwards
`actual_synced_datetime` is set to `utcnow()` (line 232).  Python's
`strptime(...).date()` on the date string is kept as the string itself. -/
def load_transactions_into_actual (transactions : Option (List SourceTxn))
    (entry : MappingEntry) (now : String) : List ReconcileCall × MappingEntry :=
  match transactions with
  | none => ([], entry)
  | some txns =>
    if txns.isEmpty then ([], entry)
    else
      (txns.map (fun t =>
        { date := t.date
          account := entry.actual_account_id.getD ""
          payee := t.description
          notes := "Akahu transaction: " ++ t.description
          amount := -t.amount
          imported_id := t.id
          cleared := true }),
       { entry with actual_synced_datetime := some now })

/-- Embedding of `get_payee_name` (akahu_to_budget.py lines 337-349):
merchant name when present, else the description. -/
def get_payee_name (t : SourceTxn) : String :=
  match t.merchant_name with
  | some n => n
  | none => t.description

/-- A row of the DataFrame produced for the YNAB import payload. -/
structure YnabTxn where
  id : String
  date : Option String
  amount : String
  memo : String
  payee_name : String
  cleared : String
  import_id : String
  flag_color : String
  account_id : String
  deriving DecidableEq, Repr

/-- Embedding of `clean_txn_for_ynab` (akahu_to_budget.py lines 366-387).
The YNAB amount is `str(int(x * 1000))` — milliunits, sign unchanged.
`convert_to_nzt` (datetime parsing plus a 13-hour shift) is an external
date-library computation, passed in as `nzt`. -/
def clean_txn_for_ynab (nzt : String → Option String) (ynab_account_id : String)
    (akahu_txn : List SourceTxn) : List YnabTxn :=
  akahu_txn.map (fun t =>
    { id := t.id
      date := nzt t.date
      amount := toString (pyTrunc (t.amount * 1000))
      memo := t.description
      payee_name := get_payee_name t
      cleared := "cleared"
      import_id := t.id
      flag_color := "red"
      account_id := ynab_account_id })

/-! ## Account directory merge (src/python/akahu_budget_mapping.py lines 125-148) -/

/-- A normalized account record from any of the three systems.  Only the
fields `combine_accounts` touches are modelled; `date_first_loaded` is
`none` when the JSON record lacks the key. -/
structure Account where
  id : String
  name : String
  date_first_loaded : Option String
  deriving DecidableEq, Repr

/-- The Python dict `{account['id']: account for account in existing}`:
for duplicate ids the later record overwrites, so lookup finds the last
occurrence. -/
def existingById (existing : List Account) (i : String) : Option Account :=
  existing.reverse.find? (fun a => a.id = i)

/-- The keys of that dict, in Python dict order: first occurrence of each id. -/
def dictKeysOf (existing : List Account) : List String :=
  existing.foldl (fun ks a => if ks.contains a.id then ks else ks ++ [a.id]) []

/-- Embedding of `combine_accounts` (akahu_budget_mapping.py lines 125-148).
`current_date` is `datetime.now().isoformat()` read once at entry.  Every
latest record is kept (in order) with `date_first_loaded` copied forward from
the existing record with the same id (defaulting to `current_date` when the
existing record lacks the field) or stamped fresh; ids present in `existing`
but absent from `latest` are returned as `deleted_accounts`. -/
def combine_accounts (current_date : String) (latest_accounts existing_accounts : List Account) :
    List Account × List String :=
  let latest_ids := latest_accounts.map (·.id)
  let combined := latest_accounts.map (fun a =>
    match existingById existing_accounts a.id with
    | some e => { a with date_first_loaded := some (e.date_first_loaded.getD current_date) }
    | none => { a with date_first_loaded := some current_date })
  let deleted := (dictKeysOf existing_accounts).filter (fun i => ¬ latest_ids.contains i)
  (combined, deleted)

/-! ## Reconciling removals into the mapping

Two distinct functions named `merge_and_update_mapping` exist; the mapping is
the Python dict keyed by `akahu_id`, modelled as an association list. -/

/-- Null out the flat Actual fields of an entry (akahu_budget_mapping.py
lines 224-227). -/
def nullActualFields (e : MappingEntry) : MappingEntry :=
  { e with actual_account_id := none, actual_budget_id := none,
           actual_budget_name := none, actual_account_name := none }

/-- Null out the flat YNAB fields of an entry (akahu_budget_mapping.py
lines 231-234). -/
def nullYnabFields (e : MappingEntry) : MappingEntry :=
  { e with ynab_account_id := none, ynab_budget_id := none,
           ynab_budget_name := none, ynab_account_name := none }

/-- Embedding of `akahu_actual_mapping.merge_and_update_mapping` (lines
68-110), mapping part.  First every entry whose `akahu_id` key is absent from
the latest Akahu accounts is deleted; then every surviving entry whose
`actual_account_id` is not the id of a latest Actual account is deleted
(`del existing_mapping[akahu_id]`) — the whole entry, not just the Actual
fields.  (An entry with `actual_account_id = None` is also deleted, since
`None not in [...]` is true.)  The `date_first_loaded` stamping of the
account lists is handled by the caller-side lists and does not affect the
mapping, so the embedding returns the updated mapping. -/
def merge_and_update_mapping_actual (existing_mapping : List (String × MappingEntry))
    (latest_akahu_accounts latest_actual_accounts : List Account) :
    List (String × MappingEntry) :=
  let akahu_ids := latest_akahu_accounts.map (·.id)
  let m1 := existing_mapping.filter (fun p => akahu_ids.contains p.1)
  m1.filter (fun p =>
    latest_actual_accounts.any (fun acc => some acc.id = p.2.actual_account_id))

/-- The Step-5 loop of `akahu_budget_mapping.merge_and_update_mapping`
(lines 196-199) collecting `(actual_id, akahu_id)` pairs whose *nested*
`entry.get("actual", {}).get("id")` is truthy and absent from the combined
Actual accounts. -/
def budget_actual_to_delete (survivors : List (String × MappingEntry))
    (actual_ids : List String) : List (String × String) :=
  survivors.filterMap (fun p =>
    match p.2.nested_actual_id with
    | some aid => if aid ≠ "" ∧ ¬ actual_ids.contains aid then some (aid, p.1) else none
    | none => none)

/-- The Step-5 loop of `akahu_budget_mapping.merge_and_update_mapping`
(lines 201-204) collecting `(ynab_id, akahu_id)` pairs whose *nested*
`entry.get("ynab", {}).get("id")` is truthy and absent from the combined
YNAB accounts. -/
def budget_ynab_to_delete (survivors : List (String × MappingEntry))
    (ynab_ids : List String) : List (String × String) :=
  survivors.filterMap (fun p =>
    match p.2.nested_ynab_id with
    | some yid => if yid ≠ "" ∧ ¬ ynab_ids.contains yid then some (yid, p.1) else none
    | none => none)

/-- Embedding of `akahu_budget_mapping.merge_and_update_mapping` (lines
151-238), mapping part.  The three account lists are first merged with
`combine_accounts`; `confirm` models the interactive
`input("Do you want to proceed ...")` answering `'y'`.  Removed-target
detection (lines 197-204) reads the *nested* `entry.get("actual"/"ynab",
{}).get("id")`, while the nulling (lines 222-235) writes the *flat*
`actual_account_id`/`ynab_account_id` fields; all deletions and nullings
happen only when something was detected and the user confirmed. -/
def merge_and_update_mapping_budget (now : String) (confirm : Bool)
    (existing_mapping : List (String × MappingEntry))
    (latest_akahu latest_actual latest_ynab : List Account)
    (existing_akahu existing_actual existing_ynab : List Account) :
    List (String × MappingEntry) × List Account × List Account × List Account :=
  let combined_akahu := (combine_accounts now latest_akahu existing_akahu).1
  let combined_actual := (combine_accounts now latest_actual existing_actual).1
  let combined_ynab := (combine_accounts now latest_ynab existing_ynab).1
  let akahu_ids := combined_akahu.map (·.id)
  let actual_ids := combined_actual.map (·.id)
  let ynab_ids := combined_ynab.map (·.id)
  let akahu_to_delete := (existing_mapping.map (·.1)).filter (fun k => ¬ akahu_ids.contains k)
  let survivors := existing_mapping.filter (fun p => akahu_ids.contains p.1)
  let actual_to_delete := budget_actual_to_delete survivors actual_ids
  let ynab_to_delete := budget_ynab_to_delete survivors ynab_ids
  let updated :=
    if (¬ akahu_to_delete.isEmpty ∨ ¬ actual_to_delete.isEmpty ∨ ¬ ynab_to_delete.isEmpty)
        ∧ confirm then
      let m1 := existing_mapping.filter (fun p => ¬ akahu_to_delete.contains p.1)
      let m2 := actual_to_delete.foldl (fun m pr =>
        m.map (fun q =>
          if q.1 = pr.2 ∧ q.2.actual_account_id = some pr.1 then (q.1, nullActualFields q.2)
          else q)) m1
      ynab_to_delete.foldl (fun m pr =>
        m.map (fun q =>
          if q.1 = pr.2 ∧ q.2.ynab_account_id = some pr.1 then (q.1, nullYnabFields q.2)
          else q)) m2
    else existing_mapping
  (updated, combined_akahu, combined_actual, combined_ynab)

/-! ## Match suggestion port (src/python/akahu_budget_mapping.py lines 257-415)

Target accounts carry the `seq` display number assigned by `match_accounts`
(`target_account['seq'] = idx` with 1-based `enumerate`).  The current
mapping is passed as the list of its values together with the accessor for
the configured `target_account_key` (`entry.get('actual_account_id')` or
`entry.get('ynab_account_id')`), and the `fuzzywuzzy` scorer is an external
`score` function. -/

structure TargetAccount where
  id : String
  name : String
  seq : Nat
  deriving DecidableEq, Repr

/-- Python `enumerate(l, start=1)`. -/
def enum1 {α : Type} (l : List α) : List (Nat × α) := l.enumFrom 1

/-- Is the account already mapped under the given key: the condition
`any(account_id == mapping.get(target_account_key) for mapping in
akahu_to_account_mapping.values())`. -/
def alreadyMapped (mapping : List MappingEntry) (key : MappingEntry → Option String)
    (account_id : String) : Bool :=
  mapping.any (fun m => key m = some account_id)

/-- Embedding of `validate_user_input` (akahu_budget_mapping.py lines
257-292).  `response_content = none` models a string `int()` cannot parse
(the `ValueError` branch).  The account is looked up by its `seq` field; the
chosen number is returned only when that account is not already mapped. -/
def validate_user_input (response_content : Option ℤ) (target_accounts : List TargetAccount)
    (mapping : List MappingEntry) (key : MappingEntry → Option String) : Option ℤ :=
  match response_content with
  | none => none
  | some chosen_seq =>
    match target_accounts.find? (fun a => (a.seq : ℤ) = chosen_seq) with
    | none => none
    | some account =>
      if alreadyMapped mapping key account.id then none else some chosen_seq

/-- `fuzzywuzzy.process.extractOne`: iterates over the choices keeping the
best score, a strictly greater score replacing the incumbent (so the first
of tied choices wins); `none` on an empty choice list. -/
def extractOne (score : String → String → Nat) (query : String)
    (choices : List String) : Option (String × Nat) :=
  choices.foldl (fun best c =>
    match best with
    | none => some (c, score query c)
    | some (b, s) => if s < score query c then some (c, score query c) else some (b, s)) none

/-- Embedding of `get_fuzzy_match_suggestion` (akahu_budget_mapping.py lines
368-415).  Already-mapped target accounts are skipped when building the
parallel lists `unmapped_accounts` (names) and `unmapped_indices` (original
1-based `enumerate` positions); the best fuzzy match is accepted at
confidence ≥ 50 and translated back through `unmapped_accounts.index(...)`
(first occurrence of the matched name). -/
def get_fuzzy_match_suggestion (akahu_name : String) (target_accounts : List TargetAccount)
    (mapping : List MappingEntry) (key : MappingEntry → Option String)
    (score : String → String → Nat) : Option ℤ :=
  let unmapped := (enum1 target_accounts).filter
    (fun p => ¬ alreadyMapped mapping key p.2.id)
  let unmapped_accounts := unmapped.map (fun p => p.2.name)
  let unmapped_indices := unmapped.map (fun p => (p.1 : ℤ))
  match extractOne score akahu_name unmapped_accounts with
  | none => none
  | some (best_match_name, confidence) =>
    if 50 ≤ confidence then
      match unmapped_accounts.indexOf? best_match_name with
      | some i => unmapped_indices.get? i
      | none => none
    else none

/-- Embedding of `get_openai_match_suggestion` (akahu_budget_mapping.py lines
295-366).  The OpenAI call is an external collaborator: `api_response = none`
models an exception (network error, rate limit, ...), `some r` the stripped
completion content after `int()` parsing (`r = none` when unparseable).  A
validated response is returned; otherwise the function falls back to the
fuzzy suggestion. -/
def get_openai_match_suggestion (akahu_name : String) (target_accounts : List TargetAccount)
    (mapping : List MappingEntry) (key : MappingEntry → Option String)
    (score : String → String → Nat) (api_response : Option (Option ℤ)) : Option ℤ :=
  match api_response with
  | some resp =>
    match validate_user_input resp target_accounts mapping key with
    | some chosen_index => some chosen_index
    | none => get_fuzzy_match_suggestion akahu_name target_accounts mapping key score
  | none => get_fuzzy_match_suggestion akahu_name target_accounts mapping key score

/-! ## Durable state file: save and load

`akahu_to_budget.save_updated_mapping` (lines 286-295) writes the four
top-level fields, the mapping dict flattened via `list(values())`;
`akahu_to_actual.save_updated_mapping` (lines 271-274) dumps only
`{"mapping": g_mapping_list}` — the dict itself, serialized as a JSON
object, with no account lists.  `akahu_to_budget.load_existing_mapping`
(lines 72-88) reads each field with a `[]` default and rebuilds the dict as
`{entry['akahu_id']: entry for entry in data.get('mapping', [])}`. -/

/-- The `mapping` field of the state document: either a JSON array of
entries or a JSON object keyed by akahu id. -/
inductive MappingJson where
  | asList (entries : List MappingEntry)
  | asDict (entries : List (String × MappingEntry))
  deriving DecidableEq, Repr

/-- The durable JSON document; `none` fields are absent keys. -/
structure StateDoc where
  akahu_accounts : Option (List Account)
  actual_accounts : Option (List Account)
  ynab_accounts : Option (List Account)
  mapping : Option MappingJson
  deriving DecidableEq, Repr

/-- The in-memory state: the three account lists plus the mapping dict
(association list keyed by akahu id, in insertion order). -/
structure SyncState where
  akahu_accounts : List Account
  actual_accounts : List Account
  ynab_accounts : List Account
  mapping : List (String × MappingEntry)
  deriving DecidableEq, Repr

/-- Python dict insertion: an existing key is overwritten in place, a new
key is appended. -/
def dictInsert (d : List (String × MappingEntry)) (k : String) (v : MappingEntry) :
    List (String × MappingEntry) :=
  if (d.map Prod.fst).contains k then
    d.map (fun p => if p.1 = k then (k, v) else p)
  else d ++ [(k, v)]

/-- The dict comprehension `{entry['akahu_id']: entry for entry in entries}`. -/
def dictOfEntries (entries : List MappingEntry) : List (String × MappingEntry) :=
  entries.foldl (fun d e => dictInsert d e.akahu_id e) []

inductive LoadError where
  | typeError
  deriving DecidableEq, Repr

/-- Embedding of `akahu_to_budget.save_updated_mapping` (lines 286-295). -/
def save_updated_mapping_budget (s : SyncState) : StateDoc :=
  { akahu_accounts := some s.akahu_accounts
    actual_accounts := some s.actual_accounts
    ynab_accounts := some s.ynab_accounts
    mapping := some (.asList (s.mapping.map Prod.snd)) }

/-- Embedding of `akahu_to_actual.save_updated_mapping` (lines 271-274):
`json.dump({"mapping": g_mapping_list}, f)` — the mapping dict alone,
serialized as a JSON object. -/
def save_updated_mapping_actual (s : SyncState) : StateDoc :=
  { akahu_accounts := none
    actual_accounts := none
    ynab_accounts := none
    mapping := some (.asDict s.mapping) }

/-- Embedding of `akahu_to_budget.load_existing_mapping` (lines 72-88) on an
existing file.  When the `mapping` field holds a JSON object instead of an
array, `for entry in data.get('mapping', [])` iterates over its *keys*
(strings), and `entry['akahu_id']` raises `TypeError` on the first key —
unless the object is empty, in which case the comprehension yields `{}`. -/
def load_existing_mapping_budget (d : StateDoc) : Except LoadError SyncState :=
  match d.mapping.getD (.asList []) with
  | .asList es =>
    .ok { akahu_accounts := d.akahu_accounts.getD []
          actual_accounts := d.actual_accounts.getD []
          ynab_accounts := d.ynab_accounts.getD []
          mapping := dictOfEntries es }
  | .asDict kvs =>
    if kvs.isEmpty then
      .ok { akahu_accounts := d.akahu_accounts.getD []
            actual_accounts := d.actual_accounts.getD []
            ynab_accounts := d.ynab_accounts.getD []
            mapping := [] }
    else .error .typeError

/-! # Theorems -/

/-- C6, counterexample.  The claim says every sync subtracts a seven-day
lookback from the checkpoint before the first page is requested.  In
`akahu_to_budget.get_all_akahu` (the script that serves the webhook and
`/sync` endpoints) the `start` parameter is the checkpoint itself: with
checkpoint 1000000 the first page is requested with start 1000000, not
1000000 − 604800. -/
theorem C6_counterexample :
    firstPageStart_budget 0 (some 1000000) = 1000000 ∧
      (1000000 : ℤ) ≠ 1000000 - 7 * 86400 := by
  constructor
  · rfl
  · decide

/-- C6, amended.  Only `akahu_to_actual.get_all_akahu` subtracts the
seven-day lookback margin (`timedelta(days=7)`) from the checkpoint (or from
the default start of time when no checkpoint exists) before requesting the
first page; `akahu_to_budget.get_all_akahu` requests the first page with the
checkpoint itself, with no lookback. -/
theorem C6_amended_lookback (start_of_time t : ℤ) :
    firstPageStart_actual start_of_time (some t) = t - 7 * 86400 ∧
      firstPageStart_actual start_of_time none = start_of_time - 7 * 86400 ∧
      firstPageStart_budget start_of_time (some t) = t ∧
      firstPageStart_budget start_of_time none = start_of_time := by
  refine ⟨rfl, rfl, rfl, rfl⟩

/-- C1, counterexample.  A request whose signature header fails base64
decoding (or is missing, so that `b64decode(None)` raises) does not get the
400 `invalid signature` response: the exception escapes the handler's
`except InvalidSignature` clause, so Flask answers with its generic 500
error instead.  (The importer is still not invoked.) -/
theorem C1_counterexample :
    receive_transaction true false true (some "TRANSACTION_CREATED") =
        .error .decodeError ∧
      (Except.error PyError.decodeError :
          Except PyError (WebhookResponse × Bool)) ≠
        .ok (⟨400, "invalid signature"⟩, false) := by
  exact ⟨rfl, fun h => Except.noConfusion h⟩

/-- C1, amended.  For every request that fails signature verification the
reconciliation code (`load_transactions_into_actual`) is never invoked.  A
*signature mismatch* (PEM key loads, header decodes, RSA verification fails)
is answered with 400 `{"status":"invalid signature"}`; but a PEM decode
failure or a base64 decode failure / missing signature header escapes the
handler as an uncaught exception (`ValueError` resp. `binascii.Error` /
`TypeError`) rather than producing the 400 response. -/
theorem C1_amended_rejection (pem_ok sig_decodes sig_matches : Bool)
    (event_type : Option String)
    (h : pem_ok = false ∨ sig_decodes = false ∨ sig_matches = false) :
    importer_invoked (receive_transaction pem_ok sig_decodes sig_matches event_type) = false ∧
      (pem_ok = true → sig_decodes = true →
        receive_transaction pem_ok sig_decodes sig_matches event_type =
          .ok (⟨400, "invalid signature"⟩, false)) ∧
      (pem_ok = false →
        receive_transaction pem_ok sig_decodes sig_matches event_type =
          .error .valueError) ∧
      (pem_ok = true → sig_decodes = false →
        receive_transaction pem_ok sig_decodes sig_matches event_type =
          .error .decodeError) := by
  cases pem_ok <;> cases sig_decodes <;> cases sig_matches <;>
    simp_all [receive_transaction, verify_signature, importer_invoked]

/-- C1, witness for the amended theorem at a concrete rejected request. -/
theorem C1_amended_rejection_witness :
    importer_invoked (receive_transaction true true false (some "TRANSACTION_CREATED")) = false ∧
      (true = true → true = true →
        receive_transaction true true false (some "TRANSACTION_CREATED") =
          .ok (⟨400, "invalid signature"⟩, false)) ∧
      (true = false →
        receive_transaction true true false (some "TRANSACTION_CREATED") =
          .error .valueError) ∧
      (true = true → true = false →
        receive_transaction true true false (some "TRANSACTION_CREATED") =
          .error .decodeError) :=
  C1_amended_rejection true true false (some "TRANSACTION_CREATED")
    (Or.inr (Or.inr rfl))

/-- C3, confirmed.  For a tracking-type mapping entry, when
`round(source_balance * 100)` equals the target's integer minor-unit balance
the balance reconciler creates zero transactions; when they differ by `d`
minor units it creates exactly one adjustment transaction of amount `d/100`,
dated now, with payee `"Balance Adjustment"` and an `imported_id` derived
from the current timestamp. -/
theorem C3_balance_adjustment (src : ℚ) (tgt : ℤ) (acct now_date now_iso : String) :
    (pyRound (src * 100) = tgt →
      handle_tracking_account_actual src tgt acct now_date now_iso = []) ∧
    (∀ d : ℤ, d ≠ 0 → pyRound (src * 100) - tgt = d →
      ∃ c : ReconcileCall,
        handle_tracking_account_actual src tgt acct now_date now_iso = [c] ∧
          c.amount = (d : ℚ) / 100 ∧ c.date = now_date ∧
          c.payee = "Balance Adjustment" ∧
          c.imported_id = "adjustment_" ++ now_iso ∧ c.cleared = true) := by
  constructor
  · intro h
    simp [handle_tracking_account_actual, h]
  · intro d hd hdiff
    have hne : pyRound (src * 100) ≠ tgt := by
      intro h
      exact hd (by omega)
    refine ⟨{ date := now_date, account := acct, payee := "Balance Adjustment",
              notes := "Adjusted from " ++ toString ((tgt : ℚ) / 100) ++ " to " ++
                toString ((pyRound (src * 100) : ℚ) / 100) ++
                " to reconcile tracking account.",
              amount := ((pyRound (src * 100) - tgt : ℤ) : ℚ) / 100,
              imported_id := "adjustment_" ++ now_iso,
              cleared := true }, ?_, ?_, rfl, rfl, rfl, rfl⟩
    · simp [handle_tracking_account_actual, hne]
    · show ((pyRound (src * 100) - tgt : ℤ) : ℚ) / 100 = (d : ℚ) / 100
      rw [hdiff]

/-- C3, witness: source balance 3.00 against target balances 300 (equal:
no transaction) and 299 (one cent apart: a single 0.01 adjustment). -/
theorem C3_balance_adjustment_witness :
    handle_tracking_account_actual 3 300 "a-1" "2026-10-12" "2026-10-12T00:00:00" = [] ∧
      ∃ c : ReconcileCall,
        handle_tracking_account_actual 3 299 "a-1" "2026-10-12" "2026-10-12T00:00:00" = [c] ∧
          c.amount = (1 : ℚ) / 100 ∧ c.date = "2026-10-12" ∧
          c.payee = "Balance Adjustment" ∧
          c.imported_id = "adjustment_" ++ "2026-10-12T00:00:00" ∧ c.cleared = true :=
  ⟨(C3_balance_adjustment 3 300 "a-1" "2026-10-12" "2026-10-12T00:00:00").1
      (by norm_num [pyRound, Rat.floor]),
   (C3_balance_adjustment 3 299 "a-1" "2026-10-12" "2026-10-12T00:00:00").2 1
      (by norm_num) (by norm_num [pyRound, Rat.floor])⟩

/-- C7, counterexample.  For a provider answering with next cursors `"c1"`,
then `"c2"`, then none (each page nonempty), the fetch loop makes exactly
three requests — without a cursor, with `c1`, and with `c2` — not the two
the claim states, and returns all three pages' items. -/
theorem C7_counterexample :
    get_all_akahu
        [.ok ⟨["t1"], some "c1"⟩, .ok ⟨["t2"], some "c2"⟩, .ok ⟨["t3"], none⟩] =
      (some ["t1", "t2", "t3"], [none, some "c1", some "c2"]) ∧
    (get_all_akahu
        [.ok ⟨["t1"], some "c1"⟩, .ok ⟨["t2"], some "c2"⟩, .ok ⟨["t3"], none⟩]).2.length ≠ 2 := by
  exact ⟨rfl, by decide⟩

/-- C7, amended.  The paginated fetch issues one request per answered page
and terminates when a page carries no next cursor — or, in
`akahu_to_budget.get_all_akahu`, also when a page has zero items even though
a next cursor is present.  For a provider answering next cursors
`c1`, `c2`, none over nonempty pages, both fetch loops make exactly three
requests (the first without a cursor parameter, then with `c1`, then with
`c2`) and return the concatenation of the three pages' items. -/
theorem C7_amended_pagination (i1 i2 i3 : List String) (c1 c2 : String)
    (rest : List (FetchAnswer String)) (pageRest : List (Page String))
    (h1 : i1 ≠ []) (h2 : i2 ≠ []) (hc1 : c1 ≠ "") (hc2 : c2 ≠ "") :
    get_all_akahu (.ok ⟨i1, some c1⟩ :: .ok ⟨i2, some c2⟩ :: .ok ⟨i3, none⟩ :: rest) =
        (some (i1 ++ (i2 ++ i3)), [none, some c1, some c2]) ∧
      fetch_transactions_paginated (⟨i1, some c1⟩ :: ⟨i2, some c2⟩ :: ⟨i3, none⟩ :: pageRest) =
        (i1 ++ (i2 ++ i3), [none, some c1, some c2]) ∧
      (∀ (items : List String) (answers : List (FetchAnswer String)) (cursor : Option String)
          (res : Option (List String)),
        get_all_akahu_go (.ok ⟨items, none⟩ :: answers) cursor res =
          (some (res.getD [] ++ items), [cursor])) ∧
      (∀ (next : Option String) (answers : List (FetchAnswer String)) (cursor : Option String)
          (res : Option (List String)),
        get_all_akahu_go (.ok ⟨[], next⟩ :: answers) cursor res =
          (some (res.getD []), [cursor])) := by
  have hlen1 : i1.length ≠ 0 := fun h => h1 (List.length_eq_zero.mp h)
  have hlen2 : i2.length ≠ 0 := fun h => h2 (List.length_eq_zero.mp h)
  refine ⟨?_, ?_, ?_, ?_⟩
  · simp [get_all_akahu, get_all_akahu_go, hlen1, hlen2]
  · simp [fetch_transactions_paginated, fetch_transactions_paginated_go, hc1, hc2]
  · intro items answers cursor res
    simp [get_all_akahu_go]
  · intro next answers cursor res
    simp [get_all_akahu_go]

/-- C7, witness for the amended pagination theorem on the concrete
two-cursor provider. -/
theorem C7_amended_pagination_witness :
    get_all_akahu
        [.ok ⟨["t1"], some "c1"⟩, .ok ⟨["t2"], some "c2"⟩, .ok ⟨["t3"], none⟩] =
        (some (["t1"] ++ (["t2"] ++ ["t3"])), [none, some "c1", some "c2"]) ∧
      fetch_transactions_paginated
          [⟨["t1"], some "c1"⟩, ⟨["t2"], some "c2"⟩, ⟨["t3"], none⟩] =
        (["t1"] ++ (["t2"] ++ ["t3"]), [none, some "c1", some "c2"]) ∧
      (∀ (items : List String) (answers : List (FetchAnswer String)) (cursor : Option String)
          (res : Option (List String)),
        get_all_akahu_go (.ok ⟨items, none⟩ :: answers) cursor res =
          (some (res.getD [] ++ items), [cursor])) ∧
      (∀ (next : Option String) (answers : List (FetchAnswer String)) (cursor : Option String)
          (res : Option (List String)),
        get_all_akahu_go (.ok ⟨[], next⟩ :: answers) cursor res =
          (some (res.getD []), [cursor])) :=
  C7_amended_pagination ["t1"] ["t2"] ["t3"] "c1" "c2" [] []
    (by decide) (by decide) (by decide) (by decide)

/-- Helper for C10: after at least one page has been stored, a run of
further nonempty pages with next cursors followed by a request error
accumulates exactly those pages' items. -/
theorem get_all_akahu_go_error_after_pages {α : Type} (good : List (Page α)) :
    ∀ (rest : List (FetchAnswer α)) (cursor : Option String) (acc : List α),
    (∀ p ∈ good, p.items ≠ [] ∧ p.next ≠ none) →
    (get_all_akahu_go (good.map .ok ++ .requestError :: rest) cursor (some acc)).1 =
      some (acc ++ (good.map Page.items).flatten) := by
  induction good with
  | nil =>
    intro rest cursor acc _
    simp [get_all_akahu_go]
  | cons p good ih =>
    intro rest cursor acc hgood
    have hp := hgood p (List.mem_cons_self p good)
    have hlen : p.items.length ≠ 0 := fun h => hp.1 (List.length_eq_zero.mp h)
    have hrec := ih rest p.next (acc ++ p.items)
      (fun q hq => hgood q (List.mem_cons_of_mem p hq))
    simp only [List.map_cons, List.cons_append, get_all_akahu_go, hlen, hp.2,
      Option.getD_some, List.flatten_cons] at hrec ⊢
    rw [if_neg (by simp [hlen, hp.2])]
    simpa [List.append_assoc] using hrec

/-- C10, confirmed.  When a request error occurs after at least one page of
transactions has been fetched, `akahu_to_budget.get_all_akahu` breaks out of
its pagination loop and returns the transactions accumulated so far, and the
caller `load_transactions_into_actual` still advances the checkpoint
(`actual_synced_datetime`) to now, exactly as for a completed fetch. -/
theorem C10_interrupted_fetch_advances_checkpoint (first : Page SourceTxn)
    (more : List (Page SourceTxn))
    (rest : List (FetchAnswer SourceTxn)) (entry : MappingEntry) (now : String)
    (hfirst : first.items ≠ [] ∧ first.next ≠ none)
    (hmore : ∀ p ∈ more, p.items ≠ [] ∧ p.next ≠ none) :
    (get_all_akahu ((first :: more).map .ok ++ .requestError :: rest)).1 =
        some ((first :: more).map Page.items).flatten ∧
      ((first :: more).map Page.items).flatten ≠ [] ∧
      (load_transactions_into_actual
          (get_all_akahu ((first :: more).map .ok ++ .requestError :: rest)).1
          entry now).2.actual_synced_datetime = some now := by
  have hlen : first.items.length ≠ 0 := fun h => hfirst.1 (List.length_eq_zero.mp h)
  have hfetch : (get_all_akahu ((first :: more).map .ok ++ .requestError :: rest)).1 =
      some ((first :: more).map Page.items).flatten := by
    have hrec := get_all_akahu_go_error_after_pages more rest first.next first.items hmore
    simp only [get_all_akahu, List.map_cons, List.cons_append, get_all_akahu_go,
      Option.getD_none, List.nil_append, List.flatten_cons]
    rw [if_neg (by simp [hlen, hfirst.2])]
    simpa using hrec
  have hne : ((first :: more).map Page.items).flatten ≠ [] := by
    simp only [List.map_cons, List.flatten_cons]
    intro h
    exact hfirst.1 (List.append_eq_nil.mp h).1
  refine ⟨hfetch, hne, ?_⟩
  rw [hfetch]
  simp only [load_transactions_into_actual]
  rw [if_neg (by simpa [List.isEmpty_iff] using hne)]

/-- A sample source transaction used by concrete instantiations. -/
def sampleTxn : SourceTxn :=
  { id := "tx1", date := "2026-10-01", amount := 5, description := "Coffee",
    merchant_name := none }

/-- A sample mapping entry used by concrete instantiations. -/
def sampleEntry : MappingEntry :=
  { akahu_id := "a1", akahu_name := "Everyday", account_type := some "On Budget",
    actual_account_id := some "t1", actual_budget_id := some "b1",
    actual_budget_name := none, actual_account_name := none,
    ynab_account_id := none, ynab_budget_id := none, ynab_budget_name := none,
    ynab_account_name := none, actual_synced_datetime := some "2024-01-01T00:00:00Z",
    matched_date := none, nested_actual_id := none, nested_ynab_id := none }

/-- C10, witness: one fetched page, then a request error. -/
theorem C10_interrupted_fetch_advances_checkpoint_witness :
    (get_all_akahu
        (([⟨[sampleTxn], some "c1"⟩] : List (Page SourceTxn)).map .ok ++ .requestError :: [])).1 =
        some (([⟨[sampleTxn], some "c1"⟩] : List (Page SourceTxn)).map Page.items).flatten ∧
      (([(⟨[sampleTxn], some "c1"⟩ : Page SourceTxn)].map Page.items).flatten ≠ []) ∧
      (load_transactions_into_actual
          (get_all_akahu
            (([⟨[sampleTxn], some "c1"⟩] : List (Page SourceTxn)).map .ok ++
              .requestError :: [])).1
          sampleEntry
          "2026-10-12T00:00:00Z").2.actual_synced_datetime = some "2026-10-12T00:00:00Z" :=
  C10_interrupted_fetch_advances_checkpoint ⟨[sampleTxn], some "c1"⟩ [] []
    sampleEntry "2026-10-12T00:00:00Z" (by simp) (by simp)

/-- C8, counterexample.  A source transaction of amount +5 is written to
Actual as −5 (negated), but `clean_txn_for_ynab` converts it to the YNAB
milliunit string `"5000"`, the *same* sign as the source — "the amount
passed ... is the negation of the source transaction's amount ... for each
target backend" fails for the YNAB backend, where the negation would be
`"-5000"`. -/
theorem C8_counterexample :
    (load_transactions_into_actual (some [sampleTxn]) sampleEntry "now").1.map
        (fun c => c.amount) = [-5] ∧
      (clean_txn_for_ynab some "y1" [sampleTxn]).map (fun t => t.amount) = ["5000"] ∧
      ("5000" : String) ≠ "-5000" := by
  refine ⟨rfl, ?_, by decide⟩
  show [toString (pyTrunc ((5 : ℚ) * 1000))] = ["5000"]
  have h : pyTrunc ((5 : ℚ) * 1000) = 5000 := by norm_num [pyTrunc, Rat.floor]
  rw [h]
  rfl

/-- C8, amended.  The amount written to the Actual backend is the negation
of the source amount (`txn["amount"] * -1`); the amount sent to the YNAB
backend is the source amount converted to milliunits (`str(int(x * 1000))`)
with its sign unchanged — only the Actual backend inverts the sign
convention. -/
theorem C8_amended_sign_convention (txns : List SourceTxn) (entry : MappingEntry)
    (now : String) (nzt : String → Option String) (ynab_account_id : String) :
    (load_transactions_into_actual (some txns) entry now).1.map (fun c => c.amount) =
        txns.map (fun t => -t.amount) ∧
      (clean_txn_for_ynab nzt ynab_account_id txns).map (fun t => t.amount) =
        txns.map (fun t => toString (pyTrunc (t.amount * 1000))) := by
  constructor
  · by_cases h : txns.isEmpty
    · rw [List.isEmpty_iff] at h
      subst h
      rfl
    · simp only [load_transactions_into_actual, if_neg h, List.map_map]
      rfl
  · simp only [clean_txn_for_ynab, List.map_map]
    rfl

/-- Helper: membership in the Python-dict key list is membership in the id
image. -/
theorem mem_dictKeysOf (existing : List Account) (i : String) :
    i ∈ dictKeysOf existing ↔ i ∈ existing.map (fun a => a.id) := by
  have aux : ∀ (l : List Account) (acc : List String),
      ∀ x, x ∈ l.foldl (fun ks a => if ks.contains a.id then ks else ks ++ [a.id]) acc ↔
        x ∈ acc ∨ x ∈ l.map (fun a => a.id) := by
    intro l
    induction l with
    | nil => intro acc x; simp
    | cons a l ih =>
      intro acc x
      simp only [List.foldl_cons, ih, List.map_cons, List.mem_cons]
      by_cases h : acc.contains a.id
      · rw [if_pos h]
        have : a.id ∈ acc := by
          simpa [List.contains_eq_any_beq, List.any_eq_true] using h
        constructor
        · rintro (hx | hx)
          · exact Or.inl hx
          · exact Or.inr (Or.inr hx)
        · rintro (hx | hx | hx)
          · exact Or.inl hx
          · exact Or.inl (hx ▸ this)
          · exact Or.inr hx
      · rw [if_neg h]
        simp only [List.mem_append, List.mem_singleton]
        tauto
  rw [dictKeysOf]
  have h := aux existing [] i
  simp only [List.mem_nil_iff, false_or] at h
  exact h

/-- C4, confirmed.  `combine_accounts` returns a merged list with exactly
the ids of `latest` (in order); an id also present in `existing` keeps the
existing record's first-seen timestamp, an id absent from `existing` is
stamped with the fresh `current_date`; the removed ids are exactly those
present in `existing` but absent from `latest`.  Being a Lean function of
`(current_date, latest, existing)`, the merge is deterministic in these
inputs (the clock reading `current_date` is taken once, at entry). -/
theorem C4_directory_merge (current_date : String)
    (latest existing : List Account)
    (hnodup : (existing.map (fun a => a.id)).Nodup) :
    (combine_accounts current_date latest existing).1.map (fun a => a.id) =
        latest.map (fun a => a.id) ∧
      (∀ a ∈ latest, ∀ e ∈ existing, e.id = a.id → ∀ d, e.date_first_loaded = some d →
        { a with date_first_loaded := some d } ∈
          (combine_accounts current_date latest existing).1) ∧
      (∀ a ∈ latest, (∀ e ∈ existing, e.id ≠ a.id) →
        { a with date_first_loaded := some current_date } ∈
          (combine_accounts current_date latest existing).1) ∧
      (∀ i, i ∈ (combine_accounts current_date latest existing).2 ↔
        i ∈ existing.map (fun a => a.id) ∧ i ∉ latest.map (fun a => a.id)) := by
  refine ⟨?_, ?_, ?_, ?_⟩
  · simp only [combine_accounts, List.map_map]
    apply List.map_congr_left
    intro a _
    simp only [Function.comp_apply]
    cases existingById existing a.id <;> rfl
  · intro a ha e he hid d hd
    have hfound : existingById existing a.id = some e := by
      unfold existingById
      cases hf : existing.reverse.find? (fun x => x.id = a.id) with
      | none =>
        rw [List.find?_eq_none] at hf
        have := hf e (List.mem_reverse.mpr he)
        simp [hid] at this
      | some e' =>
        have he'mem : e' ∈ existing := List.mem_reverse.mp (List.mem_of_find?_eq_some hf)
        have he'pred : e'.id = a.id := by simpa using List.find?_some hf
        have heq : e' = e := List.inj_on_of_nodup_map hnodup he'mem he (by rw [he'pred, hid])
        rw [heq]
    simp only [combine_accounts, List.mem_map]
    refine ⟨a, ha, ?_⟩
    rw [hfound]
    simp [hd]
  · intro a ha hnone
    have hfound : existingById existing a.id = none := by
      rw [existingById, List.find?_eq_none]
      intro x hx
      simpa using hnone x (List.mem_reverse.mp hx)
    simp only [combine_accounts, List.mem_map]
    refine ⟨a, ha, ?_⟩
    rw [hfound]
  · intro i
    simp only [combine_accounts, List.mem_filter, mem_dictKeysOf,
      decide_eq_true_eq]
    constructor
    · rintro ⟨h1, h2⟩
      exact ⟨h1, by simpa [List.contains_eq_any_beq, List.any_eq_true] using h2⟩
    · rintro ⟨h1, h2⟩
      exact ⟨h1, by simpa [List.contains_eq_any_beq, List.any_eq_true] using h2⟩

/-- C4, witness on a concrete merge: `a1` keeps timestamp `T0`, `a2` is
stamped fresh, `a3` is reported removed. -/
theorem C4_directory_merge_witness :
    (combine_accounts "NOW" [⟨"a1", "n1", none⟩, ⟨"a2", "n2", none⟩]
        [⟨"a1", "old", some "T0"⟩, ⟨"a3", "x", some "T1"⟩]).1.map (fun a => a.id) =
        ([⟨"a1", "n1", none⟩, ⟨"a2", "n2", none⟩] : List Account).map (fun a => a.id) ∧
      (∀ a ∈ ([⟨"a1", "n1", none⟩, ⟨"a2", "n2", none⟩] : List Account),
        ∀ e ∈ ([⟨"a1", "old", some "T0"⟩, ⟨"a3", "x", some "T1"⟩] : List Account),
          e.id = a.id → ∀ d, e.date_first_loaded = some d →
        { a with date_first_loaded := some d } ∈
          (combine_accounts "NOW" [⟨"a1", "n1", none⟩, ⟨"a2", "n2", none⟩]
            [⟨"a1", "old", some "T0"⟩, ⟨"a3", "x", some "T1"⟩]).1) ∧
      (∀ a ∈ ([⟨"a1", "n1", none⟩, ⟨"a2", "n2", none⟩] : List Account),
        (∀ e ∈ ([⟨"a1", "old", some "T0"⟩, ⟨"a3", "x", some "T1"⟩] : List Account),
          e.id ≠ a.id) →
        { a with date_first_loaded := some "NOW" } ∈
          (combine_accounts "NOW" [⟨"a1", "n1", none⟩, ⟨"a2", "n2", none⟩]
            [⟨"a1", "old", some "T0"⟩, ⟨"a3", "x", some "T1"⟩]).1) ∧
      (∀ i, i ∈ (combine_accounts "NOW" [⟨"a1", "n1", none⟩, ⟨"a2", "n2", none⟩]
            [⟨"a1", "old", some "T0"⟩, ⟨"a3", "x", some "T1"⟩]).2 ↔
        i ∈ ([⟨"a1", "old", some "T0"⟩, ⟨"a3", "x", some "T1"⟩] : List Account).map
            (fun a => a.id) ∧
          i ∉ ([⟨"a1", "n1", none⟩, ⟨"a2", "n2", none⟩] : List Account).map
            (fun a => a.id)) :=
  C4_directory_merge "NOW" [⟨"a1", "n1", none⟩, ⟨"a2", "n2", none⟩]
    [⟨"a1", "old", some "T0"⟩, ⟨"a3", "x", some "T1"⟩] (by decide)

/-- Helper: `List.contains` on strings is membership. -/
theorem contains_iff_mem (l : List String) (x : String) : l.contains x = true ↔ x ∈ l := by
  simp [List.contains_eq_any_beq, List.any_eq_true, eq_comm]

/-- C5, counterexample.  Target account `t1` is removed from the latest
directory while mapped to `a1` (whose source account still exists):
`akahu_actual_mapping.merge_and_update_mapping` deletes the whole entry from
the mapping, so the result is empty — not, as the claim states, the entry
persisting with only that backend's fields nulled. -/
theorem C5_counterexample :
    merge_and_update_mapping_actual [("a1", sampleEntry)] [⟨"a1", "Everyday", none⟩] [] = [] ∧
      ([] : List (String × MappingEntry)) ≠ [("a1", nullActualFields sampleEntry)] := by
  exact ⟨rfl, fun h => List.noConfusion h⟩

/-- C5, amended.  In `akahu_actual_mapping.merge_and_update_mapping` an
entry whose source id was removed is deleted, but an entry referencing a
removed Actual target id is *also deleted entirely* (never nulled): every
surviving entry is an unmodified input entry whose source id is a latest
Akahu account and whose `actual_account_id` is a latest Actual account.  In
`akahu_budget_mapping.merge_and_update_mapping`, removed-target detection
reads the nested `"actual"`/`"ynab"` sub-objects while the entries produced
by this code base carry flat keys, so for flat-format entries nothing is
ever nulled: every entry of the result is an unmodified input entry
(whole-entry deletion of removed sources, gated on confirmation, is all
that can happen). -/
theorem C5_amended_removals (mapping : List (String × MappingEntry))
    (la lact ly ea eact ey : List Account) (now : String) (confirm : Bool)
    (hflat : ∀ p ∈ mapping, p.2.nested_actual_id = none ∧ p.2.nested_ynab_id = none) :
    (∀ p ∈ merge_and_update_mapping_actual mapping la lact,
      p ∈ mapping ∧ p.1 ∈ la.map (fun a => a.id) ∧
        ∃ acc ∈ lact, some acc.id = p.2.actual_account_id) ∧
    (∀ q ∈ (merge_and_update_mapping_budget now confirm mapping la lact ly ea eact ey).1,
      q ∈ mapping) := by
  constructor
  · intro p hp
    rw [merge_and_update_mapping_actual] at hp
    have h1 := List.mem_filter.mp hp
    have h2 := List.mem_filter.mp h1.1
    refine ⟨h2.1, ?_, ?_⟩
    · exact (contains_iff_mem _ _).mp (by simpa using h2.2)
    · have := h1.2
      simp only [List.any_eq_true] at this
      obtain ⟨acc, hacc, hpred⟩ := this
      exact ⟨acc, hacc, by simpa using hpred⟩
  · intro q hq
    rw [merge_and_update_mapping_budget] at hq
    have hAD : budget_actual_to_delete
        (mapping.filter (fun p =>
          ((combine_accounts now la ea).1.map (fun a => a.id)).contains p.1))
        ((combine_accounts now lact eact).1.map (fun a => a.id)) = [] := by
      rw [budget_actual_to_delete, List.filterMap_eq_nil_iff]
      intro p hp
      rw [(hflat p (List.mem_of_mem_filter hp)).1]
    have hYD : budget_ynab_to_delete
        (mapping.filter (fun p =>
          ((combine_accounts now la ea).1.map (fun a => a.id)).contains p.1))
        ((combine_accounts now ly ey).1.map (fun a => a.id)) = [] := by
      rw [budget_ynab_to_delete, List.filterMap_eq_nil_iff]
      intro p hp
      rw [(hflat p (List.mem_of_mem_filter hp)).2]
    simp only [hAD, hYD, List.foldl_nil] at hq
    split at hq
    · exact List.mem_of_mem_filter hq
    · exact hq

/-- C5, witness for the amended theorem: source `a2` removed (entry
deleted), target of `a1` removed (entry deleted in the actual-mapping
variant; untouched by the budget-mapping variant in flat format). -/
theorem C5_amended_removals_witness :
    (∀ p ∈ merge_and_update_mapping_actual [("a1", sampleEntry)]
        [⟨"a1", "Everyday", none⟩] [],
      p ∈ [("a1", sampleEntry)] ∧
        p.1 ∈ ([⟨"a1", "Everyday", none⟩] : List Account).map (fun a => a.id) ∧
        ∃ acc ∈ ([] : List Account), some acc.id = p.2.actual_account_id) ∧
    (∀ q ∈ (merge_and_update_mapping_budget "NOW" true [("a1", sampleEntry)]
        [⟨"a1", "Everyday", none⟩] [] [] [] [] []).1,
      q ∈ [("a1", sampleEntry)]) :=
  C5_amended_removals [("a1", sampleEntry)] [⟨"a1", "Everyday", none⟩] [] [] [] [] []
    "NOW" true (by intro p hp; simp only [List.mem_singleton] at hp; subst hp; exact ⟨rfl, rfl⟩)

/-- Helper: a member of `enumFrom k l` has an index at least `k` addressing
the paired element. -/
theorem enumFrom_mem_get? {α : Type} (l : List α) :
    ∀ (k i : Nat) (a : α), (i, a) ∈ l.enumFrom k → k ≤ i ∧ l.get? (i - k) = some a := by
  induction l with
  | nil => intro k i a h; simp at h
  | cons x xs ih =>
    intro k i a h
    rw [List.enumFrom_cons, List.mem_cons] at h
    rcases h with h | h
    · have h1 : i = k := congrArg Prod.fst h
      have h2 : a = x := congrArg Prod.snd h
      subst h1
      subst h2
      simp
    · obtain ⟨h1, h2⟩ := ih (k + 1) i a h
      refine ⟨by omega, ?_⟩
      have : i - k = (i - (k + 1)) + 1 := by omega
      rw [this]
      simpa using h2

/-- Helper: the element at index `j` appears in `enumFrom k` with index
`k + j`. -/
theorem get?_mem_enumFrom {α : Type} (l : List α) :
    ∀ (k j : Nat) (a : α), l.get? j = some a → (k + j, a) ∈ l.enumFrom k := by
  induction l with
  | nil => intro k j a h; simp at h
  | cons x xs ih =>
    intro k j a h
    rw [List.enumFrom_cons]
    cases j with
    | zero =>
      simp only [List.get?_cons_zero, Option.some.injEq] at h
      subst h
      simp
    | succ n =>
      simp only [List.get?_cons_succ] at h
      have := ih (k + 1) n a h
      have harith : k + (n + 1) = (k + 1) + n := by omega
      rw [harith]
      exact List.mem_cons_of_mem _ this

/-- Helper: a best match returned by `extractOne` is one of its choices. -/
theorem extractOne_mem (score : String → String → Nat) (query : String) :
    ∀ (choices : List String) (b : String) (s : Nat),
    extractOne score query choices = some (b, s) → b ∈ choices := by
  have aux : ∀ (choices : List String) (init : Option (String × Nat)) (b : String) (s : Nat),
      choices.foldl (fun best c =>
        match best with
        | none => some (c, score query c)
        | some (b0, s0) =>
          if s0 < score query c then some (c, score query c) else some (b0, s0)) init =
        some (b, s) →
      (∃ s0, init = some (b, s0)) ∨ b ∈ choices := by
    intro choices
    induction choices with
    | nil => intro init b s h; exact Or.inl ⟨s, h⟩
    | cons c cs ih =>
      intro init b s h
      rw [List.foldl_cons] at h
      rcases ih _ b s h with hinit | hmem
      · obtain ⟨s0, hs0⟩ := hinit
        cases init with
        | none =>
          simp only [Option.some.injEq, Prod.mk.injEq] at hs0
          exact Or.inr (hs0.1 ▸ List.mem_cons_self c cs)
        | some p =>
          by_cases hlt : p.2 < score query c
          · simp only [hlt, if_true] at hs0
            exact Or.inr (by
              simp only [Option.some.injEq, Prod.mk.injEq] at hs0
              exact hs0.1 ▸ List.mem_cons_self c cs)
          · simp only [hlt, if_false] at hs0
            exact Or.inl ⟨p.2, by
              simp only [Option.some.injEq, Prod.mk.injEq] at hs0
              rw [← hs0.1]⟩
      · exact Or.inr (List.mem_cons_of_mem c hmem)
  intro choices b s h
  rcases aux choices none b s h with ⟨s0, hs0⟩ | hmem
  · exact absurd hs0 (by simp)
  · exact hmem

/-- The contract of the match suggestion port: the result is `None`, or a
1-based index into the candidate list whose target account id is not
already recorded under the configured target-account key of any existing
mapping entry. -/
def suggestionValid (targets : List TargetAccount) (mapping : List MappingEntry)
    (key : MappingEntry → Option String) (r : Option ℤ) : Prop :=
  ∀ i, r = some i → 1 ≤ i ∧ ∃ t, targets.get? (i.toNat - 1) = some t ∧
    alreadyMapped mapping key t.id = false

/-- Helper: the fuzzy suggestion satisfies the contract (already-mapped
candidates are filtered out before matching, and the returned index comes
from the filtered enumeration). -/
theorem get_fuzzy_valid (akahu_name : String) (targets : List TargetAccount)
    (mapping : List MappingEntry) (key : MappingEntry → Option String)
    (score : String → String → Nat) :
    suggestionValid targets mapping key
      (get_fuzzy_match_suggestion akahu_name targets mapping key score) := by
  intro i hi
  rw [get_fuzzy_match_suggestion] at hi
  split at hi
  · exact absurd hi (by simp)
  · split at hi
    · split at hi
      · have hmem : i ∈ (((enum1 targets).filter
            (fun p => ¬ alreadyMapped mapping key p.2.id)).map (fun p => (p.1 : ℤ))) :=
          List.get?_mem hi
        rw [List.mem_map] at hmem
        obtain ⟨p, hp, hpi⟩ := hmem
        rw [List.mem_filter] at hp
        obtain ⟨hpe, hpm⟩ := hp
        obtain ⟨hge, hget⟩ := enumFrom_mem_get? targets 1 p.1 p.2 hpe
        have hnat : i.toNat = p.1 := by
          rw [← hpi]
          exact Int.toNat_natCast p.1
        refine ⟨?_, p.2, ?_, ?_⟩
        · rw [← hpi]
          exact_mod_cast hge
        · rw [hnat]
          exact hget
        · simpa using hpm
      · exact absurd hi (by simp)
    · exact absurd hi (by simp)

/-- Helper: `validate_user_input` satisfies the contract when the displayed
`seq` numbers are the canonical 1-based positions (as `match_accounts`
assigns them). -/
theorem validate_user_input_valid (resp : Option ℤ) (targets : List TargetAccount)
    (mapping : List MappingEntry) (key : MappingEntry → Option String)
    (hseq : ∀ p ∈ enum1 targets, p.2.seq = p.1) :
    suggestionValid targets mapping key (validate_user_input resp targets mapping key) := by
  intro i hi
  rw [validate_user_input.eq_def] at hi
  split at hi
  · exact absurd hi (by simp)
  · rename_i chosen
    split at hi
    · exact absurd hi (by simp)
    · rename_i account hfind
      split at hi
      · exact absurd hi (by simp)
      · rename_i hmapped
        have hchosen : chosen = i := by simpa using hi
        have hseqeq : (account.seq : ℤ) = chosen := by
          simpa using List.find?_some hfind
        have hmem : account ∈ targets := List.mem_of_find?_eq_some hfind
        obtain ⟨j, hj⟩ := List.mem_iff_get?.mp hmem
        have henum : (j + 1, account) ∈ enum1 targets := by
          have := get?_mem_enumFrom targets 1 j account hj
          rw [enum1]
          simpa [Nat.add_comm] using this
        have hseqj : account.seq = j + 1 := hseq (j + 1, account) henum
        have hij : i = ((j + 1 : Nat) : ℤ) := by
          rw [← hchosen, ← hseqeq, hseqj]
        refine ⟨?_, account, ?_, ?_⟩
        · rw [hij]
          exact_mod_cast Nat.succ_le_succ (Nat.zero_le j)
        · rw [hij]
          simpa using hj
        · simpa using hmapped

/-- Helper: the OpenAI-backed suggestion satisfies the contract: a
validated response is returned only after re-validation, and every failure
falls back to the fuzzy suggestion. -/
theorem get_openai_valid (akahu_name : String) (targets : List TargetAccount)
    (mapping : List MappingEntry) (key : MappingEntry → Option String)
    (score : String → String → Nat) (api_response : Option (Option ℤ))
    (hseq : ∀ p ∈ enum1 targets, p.2.seq = p.1) :
    suggestionValid targets mapping key
      (get_openai_match_suggestion akahu_name targets mapping key score api_response) := by
  intro i hi
  rw [get_openai_match_suggestion.eq_def] at hi
  split at hi
  · rename_i resp
    split at hi
    · rename_i chosen hchosen
      have := validate_user_input_valid resp targets mapping key hseq
      exact this i (by rw [hchosen]; exact hi)
    · exact get_fuzzy_valid akahu_name targets mapping key score i hi
  · exact get_fuzzy_valid akahu_name targets mapping key score i hi

/-- C2, confirmed.  For every source account, candidate target list, current
mapping and scorer, both the fuzzy suggestion and the OpenAI-backed
suggestion (which re-validates the advisor's answer through
`validate_user_input` and falls back to the fuzzy path) return either `None`
or a 1-based index whose target account id is not already recorded under the
configured target-account key of any existing mapping entry. -/
theorem C2_suggestions_avoid_mapped_targets (akahu_name : String)
    (targets : List TargetAccount) (mapping : List MappingEntry)
    (key : MappingEntry → Option String) (score : String → String → Nat)
    (resp : Option ℤ) (api_response : Option (Option ℤ))
    (hseq : ∀ p ∈ enum1 targets, p.2.seq = p.1) :
    suggestionValid targets mapping key
        (get_fuzzy_match_suggestion akahu_name targets mapping key score) ∧
      suggestionValid targets mapping key
        (validate_user_input resp targets mapping key) ∧
      suggestionValid targets mapping key
        (get_openai_match_suggestion akahu_name targets mapping key score api_response) :=
  ⟨get_fuzzy_valid akahu_name targets mapping key score,
   validate_user_input_valid resp targets mapping key hseq,
   get_openai_valid akahu_name targets mapping key score api_response hseq⟩

/-- C2, witness: two candidates with `t1` already mapped; the concrete
scorer prefers any remaining candidate. -/
theorem C2_suggestions_avoid_mapped_targets_witness :
    suggestionValid [⟨"t1", "Checking", 1⟩, ⟨"t2", "Savings", 2⟩] [sampleEntry]
        (fun e => e.actual_account_id)
        (get_fuzzy_match_suggestion "Everyday" [⟨"t1", "Checking", 1⟩, ⟨"t2", "Savings", 2⟩]
          [sampleEntry] (fun e => e.actual_account_id) (fun _ _ => 80)) ∧
      suggestionValid [⟨"t1", "Checking", 1⟩, ⟨"t2", "Savings", 2⟩] [sampleEntry]
        (fun e => e.actual_account_id)
        (validate_user_input (some 1) [⟨"t1", "Checking", 1⟩, ⟨"t2", "Savings", 2⟩]
          [sampleEntry] (fun e => e.actual_account_id)) ∧
      suggestionValid [⟨"t1", "Checking", 1⟩, ⟨"t2", "Savings", 2⟩] [sampleEntry]
        (fun e => e.actual_account_id)
        (get_openai_match_suggestion "Everyday" [⟨"t1", "Checking", 1⟩, ⟨"t2", "Savings", 2⟩]
          [sampleEntry] (fun e => e.actual_account_id) (fun _ _ => 80) (some (some 1))) :=
  C2_suggestions_avoid_mapped_targets "Everyday" [⟨"t1", "Checking", 1⟩, ⟨"t2", "Savings", 2⟩]
    [sampleEntry] (fun e => e.actual_account_id) (fun _ _ => 80) (some 1) (some (some 1))
    (by decide)

/-- Helper: folding dict insertion over entries with fresh, pairwise-distinct
keys appends them in order. -/
theorem dictOfEntries_go (entries : List MappingEntry) :
    ∀ (d : List (String × MappingEntry)),
    (entries.map (fun e => e.akahu_id)).Nodup →
    (∀ e ∈ entries, e.akahu_id ∉ d.map Prod.fst) →
    entries.foldl (fun d e => dictInsert d e.akahu_id e) d =
      d ++ entries.map (fun e => (e.akahu_id, e)) := by
  induction entries with
  | nil => intro d _ _; simp
  | cons e entries ih =>
    intro d hnodup hfresh
    rw [List.foldl_cons]
    have hnotin : e.akahu_id ∉ d.map Prod.fst :=
      hfresh e (List.mem_cons_self e entries)
    have hstep : dictInsert d e.akahu_id e = d ++ [(e.akahu_id, e)] := by
      rw [dictInsert, if_neg]
      intro hc
      exact hnotin ((contains_iff_mem _ _).mp hc)
    rw [hstep]
    rw [List.map_cons] at hnodup
    have hnodup' := (List.nodup_cons.mp hnodup).2
    have hhead := (List.nodup_cons.mp hnodup).1
    rw [ih (d ++ [(e.akahu_id, e)]) hnodup' ?_]
    · simp
    · intro e' he'
      rw [List.map_append, List.mem_append]
      rintro (h | h)
      · exact hfresh e' (List.mem_cons_of_mem e he') h
      · simp only [List.map_cons, List.map_nil, List.mem_singleton] at h
        exact hhead (h ▸ List.mem_map_of_mem (fun x => x.akahu_id) he')

/-- Helper: rebuilding the mapping dict from its values is the identity when
every key is the entry's `akahu_id` and keys are pairwise distinct. -/
theorem dictOfEntries_map_snd (pairs : List (String × MappingEntry))
    (hkeys : ∀ p ∈ pairs, p.1 = p.2.akahu_id)
    (hnodup : (pairs.map Prod.fst).Nodup) :
    dictOfEntries (pairs.map Prod.snd) = pairs := by
  have hids : (pairs.map Prod.snd).map (fun e => e.akahu_id) = pairs.map Prod.fst := by
    rw [List.map_map]
    apply List.map_congr_left
    intro p hp
    exact (hkeys p hp).symm
  rw [dictOfEntries, dictOfEntries_go (pairs.map Prod.snd) [] (by rw [hids]; exact hnodup)
    (by simp)]
  rw [List.nil_append, List.map_map]
  have : ∀ p ∈ pairs, ((fun e => (e.akahu_id, e)) ∘ Prod.snd) p = id p := by
    intro p hp
    simp only [Function.comp_apply, id_eq]
    rw [← hkeys p hp]
  rw [List.map_congr_left this, List.map_id]

/-- C9, counterexample.  `akahu_to_actual.save_updated_mapping` writes only
`{"mapping": <dict>}` — no account lists, and the mapping as a JSON object
rather than a list — so loading what it saved does not restore the state:
on a state with one account and one mapping entry the load raises
`TypeError` (iterating the saved dict yields key strings, and
`entry['akahu_id']` fails on a string). -/
theorem C9_counterexample :
    load_existing_mapping_budget (save_updated_mapping_actual
        { akahu_accounts := [⟨"a1", "Everyday", some "T0"⟩],
          actual_accounts := [], ynab_accounts := [],
          mapping := [("a1", sampleEntry)] }) = .error .typeError ∧
      (Except.error LoadError.typeError : Except LoadError SyncState) ≠
        .ok { akahu_accounts := [⟨"a1", "Everyday", some "T0"⟩],
              actual_accounts := [], ynab_accounts := [],
              mapping := [("a1", sampleEntry)] } :=
  ⟨rfl, fun h => Except.noConfusion h⟩

/-- C9, amended.  The `akahu_to_budget` pair round-trips exactly —
`load_existing_mapping(save_updated_mapping(s)) = s` for every state whose
mapping dict is keyed by each entry's `akahu_id` with pairwise-distinct keys
(which is how the loader itself builds it) — including all three top-level
account-list fields and every mapping entry.  The `akahu_to_actual`
`save_updated_mapping`, however, drops the account lists and writes the
mapping as a JSON object, so its output fails to load whenever the mapping
is nonempty. -/
theorem C9_amended_roundtrip (s : SyncState)
    (hkeys : ∀ p ∈ s.mapping, p.1 = p.2.akahu_id)
    (hnodup : (s.mapping.map Prod.fst).Nodup) :
    load_existing_mapping_budget (save_updated_mapping_budget s) = .ok s ∧
      (s.mapping ≠ [] →
        load_existing_mapping_budget (save_updated_mapping_actual s) = .error .typeError) := by
  constructor
  · rw [save_updated_mapping_budget, load_existing_mapping_budget]
    simp only [Option.getD_some]
    rw [dictOfEntries_map_snd s.mapping hkeys hnodup]
  · intro hne
    rw [save_updated_mapping_actual, load_existing_mapping_budget]
    simp only [Option.getD_some]
    rw [if_neg (by simpa [List.isEmpty_iff] using hne)]

/-- C9, witness: a one-account, one-entry state round-trips through the
budget-script save/load. -/
theorem C9_amended_roundtrip_witness :
    load_existing_mapping_budget (save_updated_mapping_budget
        { akahu_accounts := [⟨"a1", "Everyday", some "T0"⟩],
          actual_accounts := [⟨"t1", "Checking", some "T0"⟩], ynab_accounts := [],
          mapping := [("a1", sampleEntry)] }) =
      .ok { akahu_accounts := [⟨"a1", "Everyday", some "T0"⟩],
            actual_accounts := [⟨"t1", "Checking", some "T0"⟩], ynab_accounts := [],
            mapping := [("a1", sampleEntry)] } ∧
    (([("a1", sampleEntry)] : List (String × MappingEntry)) ≠ [] →
      load_existing_mapping_budget (save_updated_mapping_actual
          { akahu_accounts := [⟨"a1", "Everyday", some "T0"⟩],
            actual_accounts := [⟨"t1", "Checking", some "T0"⟩], ynab_accounts := [],
            mapping := [("a1", sampleEntry)] }) = .error .typeError) :=
  C9_amended_roundtrip
    { akahu_accounts := [⟨"a1", "Everyday", some "T0"⟩],
      actual_accounts := [⟨"t1", "Checking", some "T0"⟩], ynab_accounts := [],
      mapping := [("a1", sampleEntry)] }
    (by intro p hp; simp only [List.mem_singleton] at hp; subst hp; rfl)
    (by simp)

end AkahuSync
